import Mathlib

/-!
# Verification of the realtimeSocketDB session orchestration engine

A shallow embedding, in Lean 4, of the parts of the repository that the
specification's claims are about:

* `src/services/redisService.js` — room storage (`createRoom`, `getRoom`,
  `addPlayerToRoom`, `removePlayerFromRoom`, `addGameEvent`);
* `src/services/matchmakingService.js` — the queue scan (`findMatch`) and
  `quickMatch`'s room construction;
* `src/handlers/roomHandler.js` (the Redis-backed handler) — the
  `leave-room` forfeit path, the `game-event` dispatcher, and the
  `handleGameFinished` crediting of durable leaderboard statistics;
* `src/services/achievementService.js` — `unlockAchievement` and
  `checkAchievementCriteria`.

JavaScript numbers that the code only ever uses as non-negative integers
(scores, counters, timestamps, skill levels) are modelled as `Nat`;
quantities produced by JavaScript float division (achievement progress,
average score) are modelled as `Rat`.  Objects whose fields may be absent
(`undefined`) carry `Option` fields.  Firestore reads/writes are modelled
by an association list keyed by userId, with batch semantics (all reads
happen before all writes; the writes are applied in order, last write to
a key wins) reproduced explicitly.
-/

namespace RealtimeSocketDB

/-- One entry of a room's `participantDetails` array.  The object literal in
`create-room` / `addPlayerToRoom` / `quickMatch` carries
`userId, username, joinedAt, isReady, score` and (from `addPlayerToRoom` and
`quickMatch`) an optional `skillLevel`. -/
structure Participant where
  userId : String
  username : String
  joinedAt : Nat
  isReady : Bool
  score : Nat
  skillLevel : Option Nat := none
  deriving Repr, DecidableEq, Inhabited

/-- The room object: the fields written by `createRoom`
(redisService.js lines 14–26, 41, 44) and read back by `getRoom`
(lines 63–72).  `gameSettings` is only ever consulted through
`gameSettings?.mode`, so only the mode is modelled.  `perfectScore` models
the JavaScript property access `roomData.perfectScore` in
`handleGameFinished`, which yields `undefined` (`none`) when the stored
hash has no such field. -/
structure RoomData where
  id : String
  name : String
  rtype : String
  createdBy : String
  creatorUsername : String
  maxPlayers : Nat
  currentPlayers : Nat
  participants : List String
  participantDetails : List Participant
  perfectScore : Option Nat
  status : String
  gameSettingsMode : Option String
  createdAt : Nat
  lastActivity : Nat
  gameFinishedAt : Option Nat := none
  deriving Repr, DecidableEq

/-- `redisService.createRoom` stores this exact field list into the
`room:<id>` hash: `id, name, type, createdBy, creatorUsername, maxPlayers,
currentPlayers, status, gameSettings, createdAt, lastActivity` (lines
14–26), then `participantDetails` (line 41) and `participants` (line 44).
No `perfectScore` field is ever written, so the room returned by a later
`getRoom` carries `perfectScore = none` even when the caller's `roomData`
had one. -/
def createRoom (now : Nat) (roomData : RoomData) : RoomData :=
  { id := roomData.id
    name := roomData.name
    rtype := roomData.rtype
    createdBy := roomData.createdBy
    creatorUsername := roomData.creatorUsername
    maxPlayers := roomData.maxPlayers
    currentPlayers := roomData.currentPlayers
    participants := roomData.participants
    participantDetails := roomData.participantDetails
    perfectScore := none
    status := roomData.status
    gameSettingsMode := roomData.gameSettingsMode
    createdAt := now
    lastActivity := now
    gameFinishedAt := none }

/-- `redisService.addPlayerToRoom` (lines 136–171): push the new
participant onto `participantDetails`, then store
`currentPlayers := participantDetails.length` and
`participants := participantDetails.map(p => p.userId)`.
`none` when the room does not exist (the source throws). -/
def addPlayerToRoom (room? : Option RoomData) (userId username : String)
    (skillLevel : Option Nat) (now : Nat) : Option RoomData :=
  match room? with
  | none => none
  | some room =>
    let participantDetails := room.participantDetails ++
      [{ userId := userId, username := username, skillLevel := skillLevel,
         joinedAt := now, isReady := false, score := 0 }]
    some { room with
      participantDetails := participantDetails
      currentPlayers := participantDetails.length
      participants := participantDetails.map (fun p => p.userId)
      lastActivity := now }

/-- Result of `removePlayerFromRoom`: either the room was deleted (no
participants left) or it survives with updated fields. -/
inductive RemoveResult where
  | roomDeleted : RemoveResult
  | updated (room : RoomData) : RemoveResult
  deriving Repr, DecidableEq

/-- `redisService.removePlayerFromRoom` (lines 173–213): filter the leaving
user out of `participantDetails`; delete the room when nothing remains,
otherwise store `currentPlayers := participantDetails.length`,
`participants := participantDetails.map(p => p.userId)` and reassign the
creator when the creator left. -/
def removePlayerFromRoom (room : RoomData) (userId : String) (now : Nat) :
    RemoveResult :=
  let participantDetails := room.participantDetails.filter
    (fun p => p.userId ≠ userId)
  if participantDetails.isEmpty then .roomDeleted
  else
    let base := { room with
      participantDetails := participantDetails
      currentPlayers := participantDetails.length
      participants := participantDetails.map (fun p => p.userId)
      lastActivity := now }
    if room.createdBy = userId then
      .updated { base with
        createdBy := (participantDetails.headI).userId
        creatorUsername := (participantDetails.headI).username }
    else .updated base

/-! ## The finish event (`handleGameFinished`, roomHandler.js lines 938–1193) -/

/-- Insert a participant into a list already sorted by score descending,
after every element whose score is at least as large.  Folding this over
the participant list from the left reproduces the stable descending sort
performed by `participantDetails.sort((a, b) => (b.score || 0) - (a.score || 0))`
(ECMAScript `Array.prototype.sort` is stable). -/
def insertScoreDesc (p : Participant) : List Participant → List Participant
  | [] => [p]
  | q :: l => if p.score ≤ q.score then q :: insertScoreDesc p l else p :: q :: l

/-- The stable descending sort of `handleGameFinished` line 960–961. -/
def sortScoreDesc (ps : List Participant) : List Participant :=
  ps.foldl (fun acc p => insertScoreDesc p acc) []

/-- Index-carrying variant of `insertScoreDesc`, used only to state and
prove that the sort resolves score ties by original participant order. -/
def insertScoreDescI (p : Nat × Participant) :
    List (Nat × Participant) → List (Nat × Participant)
  | [] => [p]
  | q :: l => if p.2.score ≤ q.2.score then q :: insertScoreDescI p l else p :: q :: l

/-- Index-carrying variant of `sortScoreDesc`. -/
def sortScoreDescI (ps : List (Nat × Participant)) : List (Nat × Participant) :=
  ps.foldl (fun acc p => insertScoreDescI p acc) []

/-- One entry of `finalScores` (lines 960–966): the participant together
with `rank = index + 1` and `isWinner = (index === 0)`. -/
structure Ranked where
  p : Participant
  rank : Nat
  isWinner : Bool
  deriving Repr, DecidableEq

/-- `finalScores` (lines 960–966): sort by score descending, then annotate
each entry with its 1-based rank. -/
def finalScoresOf (ps : List Participant) : List Ranked :=
  (sortScoreDesc ps).enum.map (fun ip => ⟨ip.2, ip.1 + 1, ip.1 = 0⟩)

/-- `const highestScore = finalScores[0]?.score || 0` (line 969). -/
def highestScoreOf (ps : List Participant) : Nat :=
  match sortScoreDesc ps with
  | [] => 0
  | p :: _ => p.score

/-- `const winners = finalScores.filter(p => p.score === highestScore)`
(line 970). -/
def winnersOf (ps : List Participant) : List Ranked :=
  (finalScoresOf ps).filter (fun r => r.p.score = highestScoreOf ps)

/-- Outcome recorded per participant. -/
inductive GameResult where
  | win
  | loss
  | draw
  deriving Repr, DecidableEq

/-- Per-participant result (lines 976–979 and 1000–1003): `loss` unless
some winner carries the participant's userId, in which case `draw` when
several participants share the top score and `win` otherwise. -/
def resultOf (ps : List Participant) (p : Participant) : GameResult :=
  if (winnersOf ps).any (fun w => w.p.userId = p.userId) then
    if 1 < (winnersOf ps).length then .draw else .win
  else .loss

/-- One element of `allPlayerResults` (lines 975–990). -/
structure PlayerResult where
  userId : String
  username : String
  result : GameResult
  finalScore : Nat
  rank : Nat
  totalParticipants : Nat
  points : Nat
  deriving Repr, DecidableEq

/-- `playerResults` (lines 975–990). -/
def playerResultsOf (ps : List Participant) : List PlayerResult :=
  (finalScoresOf ps).map (fun r =>
    { userId := r.p.userId
      username := r.p.username
      result := resultOf ps r.p
      finalScore := r.p.score
      rank := r.rank
      totalParticipants := (finalScoresOf ps).length
      points := r.p.score })

/-! ## The durable leaderboard (`leaderboard` collection) -/

/-- Per-game-type slice of a leaderboard record (lines 1030–1034). -/
structure GameTypeScore where
  score : Nat
  gamesPlayed : Nat
  deriving Repr, DecidableEq

/-- A document of the durable `leaderboard` collection, restricted to the
fields `handleGameFinished` reads and writes (lines 1009–1018, 1056–1068).
`averageScore` is `Math.round(newTotalScore / newGamesPlayed * 100) / 100`. -/
structure LeaderboardRecord where
  username : String
  totalScore : Nat
  gamesPlayed : Nat
  wins : Nat
  losses : Nat
  currentWinStreak : Nat
  perfectGames : Nat
  averageScore : Rat
  gameTypeScores : List (String × GameTypeScore)
  deriving Repr, DecidableEq

/-- The zero record a missing leaderboard document is initialised to
(lines 1009–1018). -/
def zeroRecord (username : String) : LeaderboardRecord :=
  { username := username, totalScore := 0, gamesPlayed := 0, wins := 0,
    losses := 0, currentWinStreak := 0, perfectGames := 0, averageScore := 0,
    gameTypeScores := [] }

/-- Update an association list at a key (first occurrence replaced, new
keys appended), modelling `gameTypeScores[gameType] = ...` and a Firestore
`set`. -/
def setAssoc {α : Type} : List (String × α) → String → α → List (String × α)
  | [], k, v => [(k, v)]
  | (k', v') :: l, k, v =>
    if k' = k then (k, v) :: l else (k', v') :: setAssoc l k v

/-- Association-list lookup returning `Option`. -/
def getAssoc {α : Type} (l : List (String × α)) (k : String) : Option α :=
  (l.find? (fun kv => kv.1 = k)).map (fun kv => kv.2)

/-- `Math.round(x * 100) / 100` on a non-negative rational
(JavaScript `Math.round` rounds half towards positive infinity). -/
def roundTo2 (x : Rat) : Rat := (⌊x * 100 + 1 / 2⌋ : Int) / 100

/-- The per-participant leaderboard update of `handleGameFinished`
(lines 1024–1068): add the score, count the game, recompute the average,
bump the per-game-type slice, adjust wins/losses and the win streak, and
increment `perfectGames` exactly when `roomData.perfectScore === userScore`
(a strict equality that is false whenever `perfectScore` is absent). -/
def creditGameResult (perfectScore : Option Nat) (gameType : String)
    (result : GameResult) (userScore : Nat) (username : String)
    (current : LeaderboardRecord) : LeaderboardRecord :=
  let newTotalScore := current.totalScore + userScore
  let newGamesPlayed := current.gamesPlayed + 1
  let gts := (getAssoc current.gameTypeScores gameType).getD ⟨0, 0⟩
  let gameTypeScores := setAssoc current.gameTypeScores gameType
    ⟨gts.score + userScore, gts.gamesPlayed + 1⟩
  let wins := if result = .win then current.wins + 1 else current.wins
  let losses := if result = .loss then current.losses + 1 else current.losses
  let currentWinStreak :=
    if result = .win then current.currentWinStreak + 1
    else if result = .loss then 0
    else current.currentWinStreak
  let perfectGames :=
    if perfectScore = some userScore then current.perfectGames + 1
    else current.perfectGames
  { username := username
    totalScore := newTotalScore
    gamesPlayed := newGamesPlayed
    wins := wins
    losses := losses
    currentWinStreak := currentWinStreak
    perfectGames := perfectGames
    averageScore := roundTo2 ((newTotalScore : Rat) / (newGamesPlayed : Rat))
    gameTypeScores := gameTypeScores }

/-- The `leaderboard` collection, keyed by userId. -/
abbrev Store : Type := List (String × LeaderboardRecord)

/-- The record `handleGameFinished` reads for a user: the stored document
merged over the zero record, or the zero record when absent. -/
def readRecord (st : Store) (userId username : String) : LeaderboardRecord :=
  (getAssoc st userId).getD (zeroRecord username)

/-- The whole leaderboard side of `handleGameFinished` (lines 992–1116):
one Firestore batch.  Every read (`userLeaderboardRef.get()`) happens
before the batch commits, so each participant's update is computed from
the pre-finish store; the buffered writes are then applied in order. -/
def finishWrites (room : RoomData) (st : Store) :
    List (String × LeaderboardRecord) :=
  let gameType := room.gameSettingsMode.getD "quiz"
  (finalScoresOf room.participantDetails).map (fun r =>
    (r.p.userId,
      creditGameResult room.perfectScore gameType
        (resultOf room.participantDetails r.p) r.p.score r.p.username
        (readRecord st r.p.userId r.p.username)))

/-- Committing the batch: the buffered writes land in order. -/
def applyFinish (room : RoomData) (st : Store) : Store :=
  (finishWrites room st).foldl (fun s kv => setAssoc s kv.1 kv.2) st

/-- `gamesPlayed` as observed for a user (zero when no document exists). -/
def gamesPlayedD (st : Store) (userId : String) : Nat :=
  ((getAssoc st userId).map (fun r => r.gamesPlayed)).getD 0

/-- `wins` as observed for a user. -/
def winsD (st : Store) (userId : String) : Nat :=
  ((getAssoc st userId).map (fun r => r.wins)).getD 0

/-- `losses` as observed for a user. -/
def lossesD (st : Store) (userId : String) : Nat :=
  ((getAssoc st userId).map (fun r => r.losses)).getD 0

/-- `perfectGames` as observed for a user. -/
def perfectGamesD (st : Store) (userId : String) : Nat :=
  ((getAssoc st userId).map (fun r => r.perfectGames)).getD 0

/-- The full effect of `handleGameFinished` (lines 938–1193): the room's
status is first set to `finished` with a `gameFinishedAt` stamp
(`updateRoom`, lines 941–946); when the participant list is empty the room
is simply deleted; otherwise the leaderboard batch is committed, the
results are broadcast, and the room is deleted (line 1180).  Either way
the room ends up removed. -/
structure FinishEffect where
  roomAfterStatusUpdate : Option RoomData
  roomDeleted : Bool
  results : List PlayerResult
  store : Store
  deriving DecidableEq

/-- `handleGameFinished` (lines 938–1193).  The achievement pass that
follows the broadcast touches the `userAchievements` and `users`
collections and the leaderboard's `totalScore` only; it never writes
`gamesPlayed`, `wins`, `losses`, `currentWinStreak` or `perfectGames`,
so it is not part of this model of the leaderboard crediting. -/
def handleGameFinished (room? : Option RoomData) (now : Nat) (st : Store) :
    FinishEffect :=
  let room?' := room?.map (fun room =>
    { room with status := "finished", gameFinishedAt := some now,
                lastActivity := now })
  match room? with
  | none => { roomAfterStatusUpdate := room?', roomDeleted := true,
              results := [], store := st }
  | some room =>
    if room.participantDetails.isEmpty then
      { roomAfterStatusUpdate := room?', roomDeleted := true,
        results := [], store := st }
    else
      { roomAfterStatusUpdate := room?', roomDeleted := true,
        results := playerResultsOf room.participantDetails,
        store := applyFinish room st }

/-! ## Leaving a room (`socket.on('leave-room')`, lines 796–935) -/

/-- The participant list handed to `handleGameFinished` on a forfeit
(lines 876–891): the remaining player keeps a positive score or is floored
to 50 (`winner.score || 50`), the leaving player is recorded with the
object literal `{ userId, username, score: 0 }` — always score 0.  That
literal carries no `joinedAt`/`isReady`; the finish path never reads them,
and they default here. -/
def forfeitDetails (winner : Participant) (leaverId leaverName : String) :
    List Participant :=
  [ { winner with score := if winner.score = 0 then 50 else winner.score },
    { userId := leaverId, username := leaverName, joinedAt := 0,
      isReady := false, score := 0 } ]

/-- What the `leave-room` handler did. -/
inductive LeaveOutcome where
  /-- `getRoom` returned null: acknowledge and clean up locally. -/
  | roomMissing
  /-- rejection: `You are not in this room`. -/
  | errNotInRoom
  /-- the removal left exactly one player: forfeit finish fired. -/
  | forfeitFinish (eff : FinishEffect)
  /-- the leaving player was the last one; the room was deleted with no
  finish (`remainingPlayers` stays empty). -/
  | lastPlayerLeft
  /-- two or more players remain: plain leave. -/
  | normalLeave (room : RoomData)
  deriving DecidableEq

/-- `socket.on('leave-room')` (lines 796–935): membership guard, removal
through `removePlayerFromRoom`, then the forfeit branch when exactly one
participant remains. -/
def leaveRoom (room? : Option RoomData) (userId username : String)
    (now : Nat) (st : Store) : LeaveOutcome :=
  match room? with
  | none => .roomMissing
  | some room =>
    if userId ∉ room.participants then .errNotInRoom
    else match removePlayerFromRoom room userId now with
      | .roomDeleted => .lastPlayerLeft
      | .updated room' =>
        if room'.participantDetails.length = 1 then
          let winner := room'.participantDetails.headI
          .forfeitFinish (handleGameFinished
            (some { room' with
              participantDetails := forfeitDetails winner userId username })
            now st)
        else .normalLeave room'

/-! ## The game-event dispatcher (`socket.on('game-event')`, lines 1282–1461) -/

/-- The fields of `eventData` the dispatcher reads. -/
structure EventData where
  points : Option Nat := none
  isReady : Bool := false
  deriving Repr, DecidableEq

/-- Observable outcome of one `game-event` message. -/
structure GameEventResult where
  /-- the `room-error` message emitted, if any. -/
  error : Option String
  /-- the room state after handling (`none` when absent or deleted). -/
  room : Option RoomData
  /-- whether the event was appended to the room's event log. -/
  eventLogged : Bool
  /-- whether the event type matched a case of the switch; the `default`
  branch only logs it to the console. -/
  recognized : Bool
  store : Store
  deriving DecidableEq

/-- `socket.on('game-event')` (lines 1282–1461).  A missing room and a
non-participant are rejected by the same guard
`if (!roomData || !roomData.participants.includes(userId))` with the single
message `You are not in this room` (lines 1299–1302); an unrecognised event
type falls to `default:`, is logged and ignored (lines 1448–1451). -/
def handleGameEvent (room? : Option RoomData) (userId username : String)
    (eventType : String) (eventData : EventData) (now : Nat) (st : Store) :
    GameEventResult :=
  if eventType = "" then
    { error := some "Room ID and event type are required", room := room?,
      eventLogged := false, recognized := false, store := st }
  else
    match room? with
    | none =>
      { error := some "You are not in this room", room := none,
        eventLogged := false, recognized := false, store := st }
    | some room =>
      if userId ∉ room.participants then
        { error := some "You are not in this room", room := some room,
          eventLogged := false, recognized := false, store := st }
      else if eventType = "test-case-passed" ∨ eventType = "bug-solved" then
        -- set-to-max-observed scoring: overwrite only on a strict increase
        let points := eventData.points.getD 10
        let prevScore :=
          ((room.participantDetails.find? (fun p => p.userId = userId)).map
            (fun p => p.score)).getD 0
        let details := room.participantDetails.map
          (fun p => if p.userId = userId then { p with score := points } else p)
        let room' :=
          if prevScore < points then
            { room with participantDetails := details, lastActivity := now }
          else room
        { error := none, room := some room', eventLogged := true,
          recognized := true, store := st }
      else if eventType = "question-answered" then
        -- additive scoring
        let qaPoints := eventData.points.getD 10
        let details := room.participantDetails.map
          (fun p =>
            if p.userId = userId then { p with score := p.score + qaPoints }
            else p)
        let room' :=
          { room with participantDetails := details, lastActivity := now }
        { error := none, room := some room', eventLogged := true,
          recognized := true, store := st }
      else if eventType = "timer-update" then
        { error := none, room := some room, eventLogged := true,
          recognized := true, store := st }
      else if eventType = "game-finished" then
        let eff := handleGameFinished (some room) now st
        { error := none, room := none, eventLogged := true,
          recognized := true, store := eff.store }
      else if eventType = "hint-used" then
        { error := none, room := some room, eventLogged := true,
          recognized := true, store := st }
      else if eventType = "player-ready-change" then
        let details := room.participantDetails.map
          (fun p =>
            if p.userId = userId then { p with isReady := eventData.isReady }
            else p)
        let room' :=
          { room with participantDetails := details, lastActivity := now }
        { error := none, room := some room', eventLogged := true,
          recognized := true, store := st }
      else
        -- default: `console.log('Custom game event: ...')`, no mutation,
        -- no rejection
        { error := none, room := some room, eventLogged := true,
          recognized := false, store := st }

/-! ## Matchmaking (`matchmakingService.js`) -/

/-- A queued player as stored in the `player:<userId>` hash
(`addToQueue`, lines 6–35). -/
structure QueueEntry where
  userId : String
  username : String
  skillLevel : Nat
  joinedAt : Nat
  deriving Repr, DecidableEq

/-- `Math.abs(skillLevel - matchSkill)` on naturals. -/
def skillDiff (a b : Nat) : Nat := max a b - min a b

/-- One step of `findMatch`'s best-candidate loop (lines 93–111):
a candidate replaces the current best only on a strictly smaller skill
difference, so ties keep the earlier candidate in scan order. -/
def bestStep (skillLevel : Nat) (best : Option (QueueEntry × Nat))
    (m : QueueEntry) : Option (QueueEntry × Nat) :=
  let diff := skillDiff skillLevel m.skillLevel
  match best with
  | none => some (m, diff)
  | some (b, d) => if diff < d then some (m, diff) else some (b, d)

/-- `matchmakingService.findMatch` (lines 54–126).  The skill-range query
`zrangebyscore(queueKey, minSkill, maxSkill)` is commented out in the
source (lines 72–77) and replaced by `zrange(queueKey, 0, -1)` (lines
78–80), so every queued entry is a candidate regardless of `skillRange`;
the parameter is received (`options.skillRange`) but never applied.
`queue` is the member list in sorted-set scan order (ascending
`skillLevel`).  Returns the winning candidate with its skill difference
(`bestMatch` / `smallestDiff`), or `none` when the pool minus the
requester is empty. -/
def findMatch (selfId : String) (skillLevel : Nat) (skillRange : Nat)
    (queue : List QueueEntry) : Option (QueueEntry × Nat) :=
  let pool := queue.filter (fun m => m.userId ≠ selfId)
  pool.foldl (bestStep skillLevel) none

/-- The `roomData` object `quickMatch` builds on a successful match
(lines 235–266): a ready 2-player room that **does** carry
`perfectScore: userProfile.perfectScore` (line 244) and no
`gameSettings`. -/
def quickMatchRoomData (userId username : String) (skillLevel : Nat)
    (perfectScore : Nat) (opponent : QueueEntry) (now : Nat) : RoomData :=
  { id := "quick_" ++ toString now ++ "_" ++ userId
    name := "Quick Match"
    rtype := "quick"
    createdBy := userId
    creatorUsername := username
    maxPlayers := 2
    currentPlayers := 2
    participants := [userId, opponent.userId]
    perfectScore := some perfectScore
    participantDetails :=
      [ { userId := userId, username := username, joinedAt := now,
          isReady := true, score := 0, skillLevel := some skillLevel },
        { userId := opponent.userId, username := opponent.username,
          joinedAt := now, isReady := true, score := 0,
          skillLevel := some opponent.skillLevel } ]
    status := "waiting"
    gameSettingsMode := none
    createdAt := now
    lastActivity := now
    gameFinishedAt := none }

/-- The `roomData` object the `create-room` handler builds
(roomHandler.js lines 638–658): one participant, `currentPlayers: 1`,
`maxPlayers` capped at 10, no `perfectScore`. -/
def createRoomHandlerData (roomName roomType : String) (maxPlayers : Nat)
    (gameSettingsMode : Option String) (userId username : String)
    (now : Nat) : RoomData :=
  { id := "room_" ++ toString now ++ "_" ++ userId
    name := roomName.trim
    rtype := roomType
    createdBy := userId
    creatorUsername := username
    maxPlayers := min maxPlayers 10
    currentPlayers := 1
    participants := [userId]
    perfectScore := none
    participantDetails :=
      [ { userId := userId, username := username, joinedAt := now,
          isReady := false, score := 0 } ]
    status := "waiting"
    gameSettingsMode := gameSettingsMode
    createdAt := now
    lastActivity := now
    gameFinishedAt := none }

/-! ## Achievements (`achievementService.js`) -/

/-- An achievement definition as read from the `achievements` collection
(only the fields `unlockAchievement` uses). -/
structure AchievementDef where
  achievementId : String
  points : Nat
  deriving Repr, DecidableEq

/-- The `userAchievements` document for one `(userId, achievementId)`
pair. -/
structure UserAchievement where
  unlockedAt : Option Nat
  progress : Rat
  deriving Repr, DecidableEq

/-- The object `unlockAchievement` returns. -/
structure UnlockResult where
  success : Bool
  alreadyUnlocked : Bool
  pointsAwarded : Option Nat
  deriving Repr, DecidableEq

/-- `achievementService.unlockAchievement` (lines 1006–1064), viewed at
one `(userId, achievementId)` pair: when a `userAchievements` document for
the pair already exists the call returns `alreadyUnlocked` and performs no
write at all; otherwise, if the definition exists, a fresh document with
`unlockedAt` set and `progress: 100` is created and the definition's
points are reported. -/
def unlockAchievement (achievement? : Option AchievementDef) (now : Nat)
    (existing : Option UserAchievement) :
    Option UserAchievement × UnlockResult :=
  match existing with
  | some ua =>
    (some ua, { success := false, alreadyUnlocked := true,
                pointsAwarded := none })
  | none =>
    match achievement? with
    | none =>
      (none, { success := false, alreadyUnlocked := false,
               pointsAwarded := none })
    | some a =>
      (some { unlockedAt := some now, progress := 100 },
       { success := true, alreadyUnlocked := false,
         pointsAwarded := some a.points })

/-- The criteria types `checkAchievementCriteria` handles
(lines 1373–1437). -/
inductive CriteriaType where
  | totalScore
  | gamesPlayed
  | winStreak
  | winCount
  | achievementsUnlocked
  | perfectScore
  | gameTypeMastery
  deriving Repr, DecidableEq

/-- `criteria: { type, target, metric }` of an achievement definition. -/
structure Criteria where
  ctype : CriteriaType
  target : Nat
  metric : String
  deriving Repr, DecidableEq

/-- The stats snapshot `checkAchievementCriteria` reads (a leaderboard
document plus `unlockedAchievementCount`). -/
structure UserStats where
  totalScore : Nat
  gamesPlayed : Nat
  currentWinStreak : Nat
  wins : Nat
  unlockedAchievementCount : Nat
  perfectGames : Nat
  gameTypeScores : List (String × GameTypeScore)
  deriving Repr, DecidableEq

/-- `{ met, progress }` as returned by `checkAchievementCriteria`
(`progress` is absent only for malformed criteria, which the `Criteria`
structure excludes). -/
structure CriteriaResult where
  met : Bool
  progress : Option Rat
  deriving Repr, DecidableEq

/-- The metric each criteria type observes in the snapshot
(each `|| 0` default is absorbed by `Nat`). -/
def observedValue (c : Criteria) (s : UserStats) : Nat :=
  match c.ctype with
  | .totalScore => s.totalScore
  | .gamesPlayed => s.gamesPlayed
  | .winStreak => s.currentWinStreak
  | .winCount => s.wins
  | .achievementsUnlocked => s.unlockedAchievementCount
  | .perfectScore => s.perfectGames
  | .gameTypeMastery => ((getAssoc s.gameTypeScores c.metric).getD ⟨0, 0⟩).score

/-- `achievementService.checkAchievementCriteria` (lines 1373–1437),
one switch arm per criteria type.  Every arm except
`achievements_unlocked` answers `{met: true, progress: 100}` once the
observed value reaches the target and otherwise caps the percentage at
99; the `achievements_unlocked` arm floors
`min(observed / target * 100, 100)`. -/
def checkAchievementCriteria (c : Criteria) (s : UserStats) : CriteriaResult :=
  match c.ctype with
  | .totalScore =>
    let score := s.totalScore
    if c.target ≤ score then { met := true, progress := some 100 }
    else { met := false,
           progress := some (min ((score : Rat) / (c.target : Rat) * 100) 99) }
  | .gamesPlayed =>
    let games := s.gamesPlayed
    if c.target ≤ games then { met := true, progress := some 100 }
    else { met := false,
           progress := some (min ((games : Rat) / (c.target : Rat) * 100) 99) }
  | .winStreak =>
    let streak := s.currentWinStreak
    if c.target ≤ streak then { met := true, progress := some 100 }
    else { met := false,
           progress := some (min ((streak : Rat) / (c.target : Rat) * 100) 99) }
  | .winCount =>
    let wins := s.wins
    if c.target ≤ wins then { met := true, progress := some 100 }
    else { met := false,
           progress := some (min ((wins : Rat) / (c.target : Rat) * 100) 99) }
  | .achievementsUnlocked =>
    let unlockedCount := s.unlockedAchievementCount
    { met := decide (c.target ≤ unlockedCount),
      progress := some
        ((⌊min ((unlockedCount : Rat) / (c.target : Rat) * 100) 100⌋ : Int) : Rat) }
  | .perfectScore =>
    let perfectGames := s.perfectGames
    if c.target ≤ perfectGames then { met := true, progress := some 100 }
    else { met := false,
           progress := some
             (min ((perfectGames : Rat) / (c.target : Rat) * 100) 99) }
  | .gameTypeMastery =>
    let gameTypeScore := ((getAssoc s.gameTypeScores c.metric).getD ⟨0, 0⟩).score
    if c.target ≤ gameTypeScore then { met := true, progress := some 100 }
    else { met := false,
           progress := some
             (min ((gameTypeScore : Rat) / (c.target : Rat) * 100) 99) }

/-! ## The room event log (`redisService.addGameEvent`, lines 304–321) -/

/-- An entry of the `room_events:<roomId>` list. -/
structure GameEvent where
  userId : String
  username : String
  eventType : String
  timestamp : Nat
  deriving Repr, DecidableEq

/-- `addGameEvent` (lines 304–321): `rpush` the JSON-encoded event, then
`ltrim(eventsKey, -100, -1)` — keep only the last 100 entries. -/
def addGameEvent (events : List GameEvent) (e : GameEvent) : List GameEvent :=
  let appended := events ++ [e]
  appended.drop (appended.length - 100)

/-! ## Lemmas about the stable descending sort -/

/-- Strict ordering on index-carrying participants: higher score first,
ties resolved by the smaller (earlier) original index. -/
def lexAfter (a b : Nat × Participant) : Prop :=
  b.2.score < a.2.score ∨ (a.2.score = b.2.score ∧ a.1 < b.1)

/-- Everything the spec asserts about `finalScores`, the ranks and the
results of a finish event: `finalScores` is a permutation of the
participants, listed by score descending; the index-carrying sort is
strictly ordered by (score descending, original position ascending), so
ties keep the original participant order; ranks are the 1-based sort
positions; all participants tied for the top score draw when there are
several, and a unique top scorer wins while everyone else loses. -/
def FinalScoresSpec (ps : List Participant) : Prop :=
  ((finalScoresOf ps).map (fun r => r.p)).Perm ps ∧
  ((finalScoresOf ps).map (fun r => r.p)).Pairwise (fun a b => b.score ≤ a.score) ∧
  (sortScoreDescI ps.enum).map Prod.snd = (finalScoresOf ps).map (fun r => r.p) ∧
  (sortScoreDescI ps.enum).Pairwise lexAfter ∧
  (sortScoreDescI ps.enum).Perm ps.enum ∧
  (finalScoresOf ps).map (fun r => r.rank) = (List.range ps.length).map (fun i => i + 1) ∧
  (1 < (winnersOf ps).length →
    ∀ r ∈ finalScoresOf ps,
      resultOf ps r.p = if r.p.score = highestScoreOf ps then .draw else .loss) ∧
  ((winnersOf ps).length = 1 →
    ∀ r ∈ finalScoresOf ps,
      resultOf ps r.p = if r.p.score = highestScoreOf ps then .win else .loss)

/-- Everything that actually happens on a mid-game leave that strands a
single player `w` (the forfeit path of `leave-room`): the finish fires,
the room is marked finished and then removed, `w` is recorded as the
winner at rank 1 with a floor score of 50 when they had no organic score
yet (their positive score preserved otherwise), the leaver is recorded at
rank 2 with score 0 — always 0, whatever score they had — and the durable
store credits `w` with a win and the leaver with a loss, one game played
each. -/
def ForfeitSpec (room : RoomData) (w : Participant) (uid uname : String)
    (now : Nat) (st : Store) : Prop :=
  ∃ eff : FinishEffect,
    leaveRoom (some room) uid uname now st = .forfeitFinish eff ∧
    (∃ r, eff.roomAfterStatusUpdate = some r ∧ r.status = "finished") ∧
    eff.roomDeleted = true ∧
    ((eff.results.find? (fun r => r.userId = w.userId)).map
        (fun r => (r.result, r.finalScore, r.rank)) =
      some (.win, if w.score = 0 then 50 else w.score, 1)) ∧
    ((eff.results.find? (fun r => r.userId = uid)).map
        (fun r => (r.result, r.finalScore, r.rank)) = some (.loss, 0, 2)) ∧
    winsD eff.store w.userId = winsD st w.userId + 1 ∧
    gamesPlayedD eff.store w.userId = gamesPlayedD st w.userId + 1 ∧
    lossesD eff.store uid = lossesD st uid + 1 ∧
    gamesPlayedD eff.store uid = gamesPlayedD st uid + 1

/-- The final score recorded for `uid` when a leave ends in a forfeit
finish (`none` for every other outcome). -/
def leaverRecordedScore (out : LeaveOutcome) (uid : String) : Option Nat :=
  match out with
  | .forfeitFinish eff =>
    (eff.results.find? (fun r => r.userId = uid)).map (fun r => r.finalScore)
  | _ => none

/-- `m` is the first entry of `pool` (in scan order) attaining the
minimal skill difference `d` from `skillLevel`: everything before it is
strictly farther, everything after it no closer. -/
def FirstClosest (skillLevel : Nat) (pool : List QueueEntry)
    (m : QueueEntry) (d : Nat) : Prop :=
  ∃ l₁ l₂, pool = l₁ ++ m :: l₂ ∧ d = skillDiff skillLevel m.skillLevel ∧
    (∀ x ∈ l₁, d < skillDiff skillLevel x.skillLevel) ∧
    (∀ x ∈ l₂, d ≤ skillDiff skillLevel x.skillLevel)

/-- The participant-changing operations of the session store. -/
inductive RoomOp where
  | create (roomData : RoomData)
  | addPlayer (userId username : String) (skillLevel : Option Nat)
  | removePlayer (userId : String)
  deriving Repr, DecidableEq

/-- Run one participant-changing operation against the stored room state
(`none` = no such room / room deleted). -/
def applyRoomOp (room? : Option RoomData) (op : RoomOp) (now : Nat) :
    Option RoomData :=
  match op with
  | .create rd => some (createRoom now rd)
  | .addPlayer userId username skillLevel =>
    addPlayerToRoom room? userId username skillLevel now
  | .removePlayer userId =>
    match room? with
    | none => none
    | some room =>
      match removePlayerFromRoom room userId now with
      | .roomDeleted => none
      | .updated room' => some room'

/-- Everything the spec asserts about one criteria check: reaching the
target yields `met` with progress 100, falling short yields the capped
percentage (floored for the `achievements_unlocked` arm), and progress
100 is never reported without the criterion being satisfied. -/
def ProgressSpec (c : Criteria) (s : UserStats) : Prop :=
  (c.target ≤ observedValue c s →
    (checkAchievementCriteria c s).met = true ∧
    (checkAchievementCriteria c s).progress = some 100) ∧
  (observedValue c s < c.target →
    (checkAchievementCriteria c s).met = false ∧
    (c.ctype ≠ .achievementsUnlocked →
      (checkAchievementCriteria c s).progress =
        some (min ((observedValue c s : Rat) / (c.target : Rat) * 100) 99)) ∧
    (c.ctype = .achievementsUnlocked →
      (checkAchievementCriteria c s).progress =
        some ((⌊min ((observedValue c s : Rat) / (c.target : Rat) * 100) 100⌋ : Int) : Rat))) ∧
  ((checkAchievementCriteria c s).progress = some 100 →
    (checkAchievementCriteria c s).met = true)

/-! ## Concrete sessions, queues and snapshots used by witnesses -/

/-- A one-player playing session (participant `u`, score 10). -/
def roomU : RoomData :=
  { id := "room_1_u", name := "Solo", rtype := "public", createdBy := "u",
    creatorUsername := "U", maxPlayers := 2, currentPlayers := 1,
    participants := ["u"],
    participantDetails := [⟨"u", "U", 0, true, 10, none⟩],
    perfectScore := none, status := "playing", gameSettingsMode := none,
    createdAt := 0, lastActivity := 0, gameFinishedAt := none }

/-- A two-player playing session: `a` has score 40, `b` — the participant
who is about to leave — already has a positive score of 30. -/
def roomAB : RoomData :=
  { id := "room_2_a", name := "Duel", rtype := "public", createdBy := "a",
    creatorUsername := "A", maxPlayers := 2, currentPlayers := 2,
    participants := ["a", "b"],
    participantDetails := [⟨"a", "A", 0, true, 40, none⟩,
                           ⟨"b", "B", 1, true, 30, none⟩],
    perfectScore := none, status := "playing", gameSettingsMode := none,
    createdAt := 0, lastActivity := 0, gameFinishedAt := none }

/-- Queue entries of the spec's matchmaking example. -/
def qA : QueueEntry := ⟨"A", "A", 1000, 0⟩

/-- See `qA`. -/
def qB : QueueEntry := ⟨"B", "B", 1050, 1⟩

/-- See `qA`. -/
def qC : QueueEntry := ⟨"C", "C", 1800, 2⟩

theorem insertScoreDesc_perm (p : Participant) (l : List Participant) :
    (insertScoreDesc p l).Perm (p :: l) := by
  induction l with
  | nil => exact List.Perm.refl _
  | cons q l ih =>
    unfold insertScoreDesc
    split
    · exact (List.Perm.cons q ih).trans (List.Perm.swap p q l)
    · exact List.Perm.refl _

theorem insertScoreDescI_perm (p : Nat × Participant)
    (l : List (Nat × Participant)) :
    (insertScoreDescI p l).Perm (p :: l) := by
  induction l with
  | nil => exact List.Perm.refl _
  | cons q l ih =>
    unfold insertScoreDescI
    split
    · exact (List.Perm.cons q ih).trans (List.Perm.swap p q l)
    · exact List.Perm.refl _

theorem mem_insertScoreDescI {x p : Nat × Participant}
    {l : List (Nat × Participant)} (h : x ∈ insertScoreDescI p l) :
    x = p ∨ x ∈ l := by
  have := (insertScoreDescI_perm p l).mem_iff.mp h
  simpa using this

theorem foldl_insertScoreDesc_perm (ps : List Participant) :
    ∀ acc, (ps.foldl (fun acc p => insertScoreDesc p acc) acc).Perm (ps ++ acc) := by
  induction ps with
  | nil => intro acc; simp
  | cons p ps ih =>
    intro acc
    refine (ih (insertScoreDesc p acc)).trans ?_
    refine (List.Perm.append_left ps (insertScoreDesc_perm p acc)).trans ?_
    simpa using List.perm_middle

theorem sortScoreDesc_perm (ps : List Participant) :
    (sortScoreDesc ps).Perm ps := by
  simpa using foldl_insertScoreDesc_perm ps []

theorem foldl_insertScoreDescI_perm (ps : List (Nat × Participant)) :
    ∀ acc,
      (ps.foldl (fun acc p => insertScoreDescI p acc) acc).Perm (ps ++ acc) := by
  induction ps with
  | nil => intro acc; simp
  | cons p ps ih =>
    intro acc
    refine (ih (insertScoreDescI p acc)).trans ?_
    refine (List.Perm.append_left ps (insertScoreDescI_perm p acc)).trans ?_
    simpa using List.perm_middle

theorem sortScoreDescI_perm (ps : List (Nat × Participant)) :
    (sortScoreDescI ps).Perm ps := by
  simpa using foldl_insertScoreDescI_perm ps []

theorem insertScoreDescI_map_snd (p : Nat × Participant)
    (l : List (Nat × Participant)) :
    (insertScoreDescI p l).map Prod.snd = insertScoreDesc p.2 (l.map Prod.snd) := by
  induction l with
  | nil => rfl
  | cons q l ih =>
    unfold insertScoreDescI insertScoreDesc
    by_cases h : p.2.score ≤ q.2.score <;> simp [h, ih]

theorem sortScoreDescI_map_snd (ps : List (Nat × Participant)) :
    (sortScoreDescI ps).map Prod.snd = sortScoreDesc (ps.map Prod.snd) := by
  suffices h : ∀ acc,
      (ps.foldl (fun acc p => insertScoreDescI p acc) acc).map Prod.snd =
        (ps.map Prod.snd).foldl (fun acc p => insertScoreDesc p acc)
          (acc.map Prod.snd) by
    simpa using h []
  induction ps with
  | nil => intro acc; rfl
  | cons p ps ih =>
    intro acc
    simpa [insertScoreDescI_map_snd] using ih (insertScoreDescI p acc)

theorem insertScoreDescI_pairwise {p : Nat × Participant}
    {l : List (Nat × Participant)} (hl : l.Pairwise lexAfter)
    (hidx : ∀ q ∈ l, q.1 < p.1) :
    (insertScoreDescI p l).Pairwise lexAfter := by
  induction l with
  | nil => simp [insertScoreDescI]
  | cons q l ih =>
    rw [List.pairwise_cons] at hl
    unfold insertScoreDescI
    split
    · rename_i hle
      rw [List.pairwise_cons]
      constructor
      · intro x hx
        rcases mem_insertScoreDescI hx with rfl | hx
        · rcases Nat.lt_or_ge x.2.score q.2.score with hlt | hge
          · exact Or.inl hlt
          · exact Or.inr ⟨Nat.le_antisymm hge hle, hidx q (by simp)⟩
        · exact hl.1 x hx
      · exact ih hl.2 (fun r hr => hidx r (by simp [hr]))
    · rename_i hgt
      push_neg at hgt
      rw [List.pairwise_cons]
      constructor
      · intro x hx
        rcases List.mem_cons.mp hx with rfl | hx
        · exact Or.inl hgt
        · refine Or.inl ?_
          rcases hl.1 x hx with h | h
          · exact h.trans hgt
          · exact h.1 ▸ hgt
      · exact List.pairwise_cons.mpr hl

theorem sortScoreDescI_pairwise_of (ps : List (Nat × Participant))
    (hps : ps.Pairwise (fun a b => a.1 < b.1)) :
    (sortScoreDescI ps).Pairwise lexAfter := by
  suffices h : ∀ acc, acc.Pairwise lexAfter →
      (∀ q ∈ acc, ∀ p ∈ ps, q.1 < p.1) →
      ps.Pairwise (fun a b => a.1 < b.1) →
      (ps.foldl (fun acc p => insertScoreDescI p acc) acc).Pairwise lexAfter by
    exact h [] (by simp) (by simp) hps
  clear hps
  induction ps with
  | nil => intro acc h _ _; exact h
  | cons p ps ih =>
    intro acc hacc hidx hps
    rw [List.pairwise_cons] at hps
    refine ih (insertScoreDescI p acc)
      (insertScoreDescI_pairwise hacc (fun q hq => hidx q hq p (by simp))) ?_ hps.2
    intro q hq r hr
    rcases mem_insertScoreDescI hq with rfl | hq
    · exact hps.1 r hr
    · exact hidx q hq r (by simp [hr])

theorem le_fst_of_mem_enumFrom {x : Nat × Participant} :
    ∀ (ps : List Participant) (m : Nat), x ∈ ps.enumFrom m → m ≤ x.1 := by
  intro ps
  induction ps with
  | nil => intro m h; simp at h
  | cons p ps ih =>
    intro m h
    rcases List.mem_cons.mp h with rfl | h
    · exact Nat.le_refl _
    · exact Nat.le_of_succ_le (ih (m + 1) h)

theorem pairwise_fst_enumFrom (ps : List Participant) :
    ∀ m, (ps.enumFrom m).Pairwise (fun a b => a.1 < b.1) := by
  induction ps with
  | nil => intro m; simp
  | cons p ps ih =>
    intro m
    rw [List.enumFrom_cons, List.pairwise_cons]
    exact ⟨fun x hx => Nat.lt_of_succ_le (le_fst_of_mem_enumFrom ps (m + 1) hx),
      ih (m + 1)⟩

theorem pairwise_fst_enum (ps : List Participant) :
    ps.enum.Pairwise (fun a b => a.1 < b.1) :=
  pairwise_fst_enumFrom ps 0

theorem sortScoreDescI_enum_pairwise (ps : List Participant) :
    (sortScoreDescI ps.enum).Pairwise lexAfter :=
  sortScoreDescI_pairwise_of ps.enum (pairwise_fst_enum ps)

theorem sortScoreDescI_enum_map_snd (ps : List Participant) :
    (sortScoreDescI ps.enum).map Prod.snd = sortScoreDesc ps := by
  rw [sortScoreDescI_map_snd, List.enum_map_snd]

theorem sortScoreDesc_pairwise (ps : List Participant) :
    (sortScoreDesc ps).Pairwise (fun a b => b.score ≤ a.score) := by
  rw [← sortScoreDescI_enum_map_snd]
  refine List.Pairwise.map Prod.snd ?_ (sortScoreDescI_enum_pairwise ps)
  intro a b h
  rcases h with h | h
  · exact Nat.le_of_lt h
  · exact Nat.le_of_eq h.1.symm

theorem finalScoresOf_map_p (ps : List Participant) :
    (finalScoresOf ps).map (fun r => r.p) = sortScoreDesc ps := by
  simp only [finalScoresOf, List.map_map]
  exact List.enum_map_snd _

theorem finalScoresOf_map_rank (ps : List Participant) :
    (finalScoresOf ps).map (fun r => r.rank) =
      (List.range (sortScoreDesc ps).length).map (fun i => i + 1) := by
  simp only [finalScoresOf, List.map_map, Function.comp]
  rw [← List.enum_map_fst (sortScoreDesc ps), List.map_map]
  rfl

theorem sortScoreDesc_length (ps : List Participant) :
    (sortScoreDesc ps).length = ps.length :=
  (sortScoreDesc_perm ps).length_eq

theorem mem_ps_of_mem_finalScores {ps : List Participant} {r : Ranked}
    (h : r ∈ finalScoresOf ps) : r.p ∈ ps := by
  have h1 : r.p ∈ (finalScoresOf ps).map (fun r => r.p) :=
    List.mem_map_of_mem _ h
  rw [finalScoresOf_map_p] at h1
  exact (sortScoreDesc_perm ps).mem_iff.mp h1

theorem mem_winners_iff {ps : List Participant} {r : Ranked} :
    r ∈ winnersOf ps ↔ r ∈ finalScoresOf ps ∧ r.p.score = highestScoreOf ps := by
  simp [winnersOf, List.mem_filter]

/-- C4.  For every finish event on a session with a non-empty participant
list whose userIds are distinct (the spec's uniqueness invariant),
`finalScores` is the participant list sorted by score descending with
ties broken by original participant order, each rank is the 1-based sort
position, every participant tied for the top score draws when several
are tied, and a unique top scorer wins while everyone else loses. -/
theorem claim_C4_finish_results (ps : List Participant) (hne : ps ≠ [])
    (hnd : (ps.map (fun p => p.userId)).Nodup) : FinalScoresSpec ps := by
  have hmapp := finalScoresOf_map_p ps
  refine ⟨?_, ?_, ?_, ?_, ?_, ?_, ?_, ?_⟩
  · rw [hmapp]; exact sortScoreDesc_perm ps
  · rw [hmapp]; exact sortScoreDesc_pairwise ps
  · rw [hmapp]; exact sortScoreDescI_enum_map_snd ps
  · exact sortScoreDescI_enum_pairwise ps
  · exact sortScoreDescI_perm ps.enum
  · rw [finalScoresOf_map_rank, sortScoreDesc_length]
  · intro hlen r hr
    by_cases hs : r.p.score = highestScoreOf ps
    · have hrW : r ∈ winnersOf ps := mem_winners_iff.mpr ⟨hr, hs⟩
      have hany : (winnersOf ps).any (fun w => w.p.userId = r.p.userId) = true :=
        List.any_eq_true.mpr ⟨r, hrW, by simp⟩
      simp [resultOf, hany, hs, hlen]
    · have hany : ¬ (winnersOf ps).any (fun w => w.p.userId = r.p.userId) = true := by
        intro h
        rcases List.any_eq_true.mp h with ⟨w, hwW, hw⟩
        have hweq : w.p.userId = r.p.userId := by simpa using hw
        have hws : w.p.score = highestScoreOf ps := (mem_winners_iff.mp hwW).2
        have hwmem : w.p ∈ ps := mem_ps_of_mem_finalScores (mem_winners_iff.mp hwW).1
        have hrmem : r.p ∈ ps := mem_ps_of_mem_finalScores hr
        have heq : w.p = r.p := List.inj_on_of_nodup_map hnd hwmem hrmem hweq
        exact hs (heq ▸ hws)
      simp [resultOf, hany, hs]
  · intro hlen r hr
    by_cases hs : r.p.score = highestScoreOf ps
    · have hrW : r ∈ winnersOf ps := mem_winners_iff.mpr ⟨hr, hs⟩
      have hany : (winnersOf ps).any (fun w => w.p.userId = r.p.userId) = true :=
        List.any_eq_true.mpr ⟨r, hrW, by simp⟩
      simp [resultOf, hany, hs, hlen]
    · have hany : ¬ (winnersOf ps).any (fun w => w.p.userId = r.p.userId) = true := by
        intro h
        rcases List.any_eq_true.mp h with ⟨w, hwW, hw⟩
        have hweq : w.p.userId = r.p.userId := by simpa using hw
        have hws : w.p.score = highestScoreOf ps := (mem_winners_iff.mp hwW).2
        have hwmem : w.p ∈ ps := mem_ps_of_mem_finalScores (mem_winners_iff.mp hwW).1
        have hrmem : r.p ∈ ps := mem_ps_of_mem_finalScores hr
        have heq : w.p = r.p := List.inj_on_of_nodup_map hnd hwmem hrmem hweq
        exact hs (heq ▸ hws)
      simp [resultOf, hany, hs]

/-- Witness for C4 at a concrete two-player session. -/
theorem claim_C4_finish_results_witness :
    ([⟨"alice", "Alice", 0, false, 3, none⟩,
      ⟨"bob", "Bob", 1, false, 5, none⟩] : List Participant) ≠ [] ∧
    (([⟨"alice", "Alice", 0, false, 3, none⟩,
       ⟨"bob", "Bob", 1, false, 5, none⟩] : List Participant).map
      (fun p => p.userId)).Nodup ∧
    FinalScoresSpec [⟨"alice", "Alice", 0, false, 3, none⟩,
      ⟨"bob", "Bob", 1, false, 5, none⟩] :=
  ⟨by decide, by decide, claim_C4_finish_results _ (by decide) (by decide)⟩

/-! ## Lemmas about the keyed store and the finish batch -/

theorem getAssoc_cons {α : Type} (k' : String) (v' : α)
    (l : List (String × α)) (k : String) :
    getAssoc ((k', v') :: l) k = if k' = k then some v' else getAssoc l k := by
  by_cases h : k' = k <;> simp [getAssoc, List.find?_cons, h]

theorem getAssoc_setAssoc_self {α : Type} (l : List (String × α))
    (k : String) (v : α) : getAssoc (setAssoc l k v) k = some v := by
  induction l with
  | nil => simp [setAssoc, getAssoc_cons]
  | cons kv l ih =>
    rcases kv with ⟨k', v'⟩
    unfold setAssoc
    by_cases h : k' = k <;> simp [h, getAssoc_cons, ih]

theorem getAssoc_setAssoc_ne {α : Type} (l : List (String × α))
    {k k' : String} (v : α) (h : k' ≠ k) :
    getAssoc (setAssoc l k v) k' = getAssoc l k' := by
  have h2 : ¬ (k = k') := fun hh => h hh.symm
  induction l with
  | nil => simp [setAssoc, getAssoc_cons, h2, getAssoc]
  | cons kv l ih =>
    rcases kv with ⟨k₀, v₀⟩
    unfold setAssoc
    by_cases h₀ : k₀ = k
    · subst h₀
      simp [getAssoc_cons, h2]
    · simp [h₀, getAssoc_cons, ih]

theorem getAssoc_foldl_setAssoc (ws : List (String × LeaderboardRecord)) :
    ∀ (st : Store) (k : String),
      getAssoc (ws.foldl (fun s kv => setAssoc s kv.1 kv.2) st) k =
        (match ws.reverse.find? (fun kv => kv.1 = k) with
          | some kv => some kv.2
          | none => getAssoc st k) := by
  induction ws with
  | nil => intro st k; rfl
  | cons w ws ih =>
    intro st k
    rw [List.foldl_cons, ih, List.reverse_cons, List.find?_append]
    cases hf : ws.reverse.find? (fun kv => kv.1 = k) with
    | some kv => simp
    | none =>
      by_cases h : w.1 = k
      · subst h
        simp [List.find?_cons, getAssoc_setAssoc_self]
      · have h2 : ¬ (k = w.1) := fun hh => h hh.symm
        simp [List.find?_cons, h, getAssoc_setAssoc_ne st w.2 h2]

theorem readRecord_gamesPlayed (st : Store) (uid n : String) :
    (readRecord st uid n).gamesPlayed = gamesPlayedD st uid := by
  unfold readRecord gamesPlayedD zeroRecord
  cases getAssoc st uid <;> simp

theorem creditGameResult_gamesPlayed (ps : Option Nat) (gt : String)
    (res : GameResult) (s : Nat) (n : String) (cur : LeaderboardRecord) :
    (creditGameResult ps gt res s n cur).gamesPlayed = cur.gamesPlayed + 1 := rfl

theorem exists_finishWrite (st : Store) {room : RoomData} {uid : String}
    (h : uid ∈ room.participantDetails.map (fun p => p.userId)) :
    ∃ kv ∈ finishWrites room st, kv.1 = uid := by
  have hperm : (sortScoreDesc room.participantDetails).Perm
      room.participantDetails := sortScoreDesc_perm _
  have h2 : uid ∈ (sortScoreDesc room.participantDetails).map
      (fun p => p.userId) := (hperm.map (fun p => p.userId)).mem_iff.mpr h
  rw [← finalScoresOf_map_p, List.map_map] at h2
  rcases List.mem_map.mp h2 with ⟨r, hr, hruid⟩
  refine ⟨(r.p.userId,
    creditGameResult room.perfectScore (room.gameSettingsMode.getD "quiz")
      (resultOf room.participantDetails r.p) r.p.score r.p.username
      (readRecord st r.p.userId r.p.username)), ?_, hruid⟩
  exact List.mem_map_of_mem _ hr

theorem finishWrite_gamesPlayed {room : RoomData} {st : Store}
    {kv : String × LeaderboardRecord} (hkv : kv ∈ finishWrites room st) :
    kv.2.gamesPlayed = gamesPlayedD st kv.1 + 1 := by
  rcases List.mem_map.mp hkv with ⟨r, _, hfr⟩
  rw [← hfr]
  simp [creditGameResult_gamesPlayed, readRecord_gamesPlayed]

theorem getAssoc_applyFinish (room : RoomData) (st : Store) (uid : String) :
    getAssoc (applyFinish room st) uid =
      (match (finishWrites room st).reverse.find? (fun kv => kv.1 = uid) with
        | some kv => some kv.2
        | none => getAssoc st uid) :=
  getAssoc_foldl_setAssoc (finishWrites room st) st uid

theorem gamesPlayedD_applyFinish (room : RoomData) (st : Store) (uid : String)
    (h : uid ∈ room.participantDetails.map (fun p => p.userId)) :
    gamesPlayedD (applyFinish room st) uid = gamesPlayedD st uid + 1 := by
  cases hf : (finishWrites room st).reverse.find? (fun kv => kv.1 = uid) with
  | none =>
    exfalso
    rcases exists_finishWrite st h with ⟨kv, hkv, hkvuid⟩
    have hnone := List.find?_eq_none.mp hf kv (List.mem_reverse.mpr hkv)
    exact hnone (by simp [hkvuid])
  | some kv =>
    have hkvuid : kv.1 = uid := by simpa using List.find?_some hf
    have hkvmem : kv ∈ finishWrites room st :=
      List.mem_reverse.mp (List.mem_of_find?_eq_some hf)
    have hgp := finishWrite_gamesPlayed hkvmem
    rw [hkvuid] at hgp
    have hres : getAssoc (applyFinish room st) uid = some kv.2 := by
      rw [getAssoc_applyFinish, hf]
    unfold gamesPlayedD
    rw [hres]
    simpa using hgp

/-- C1 (amended).  Each processing of a finish event increases every
participant's durable `gamesPlayed` by exactly one — but the crediting is
a plain read-then-write with no per-(sessionId, userId) processed marker,
so replaying the same finish event credits again: after two runs the
counter has grown by 2, not 1. -/
theorem claim_C1_games_played (room : RoomData) (st : Store) (uid : String)
    (h : uid ∈ room.participantDetails.map (fun p => p.userId)) :
    gamesPlayedD (applyFinish room st) uid = gamesPlayedD st uid + 1 ∧
    gamesPlayedD (applyFinish room (applyFinish room st)) uid =
      gamesPlayedD st uid + 2 := by
  refine ⟨gamesPlayedD_applyFinish room st uid h, ?_⟩
  rw [gamesPlayedD_applyFinish room _ uid h, gamesPlayedD_applyFinish room st uid h]

/-- Counterexample to C1 as stated: replaying the finish of the
one-player session `roomU` leaves participant `u` with `gamesPlayed = 2`,
not 1 — the durable crediting is not idempotent per (sessionId, userId). -/
theorem claim_C1_counterexample :
    gamesPlayedD (applyFinish roomU (applyFinish roomU [])) "u" = 2 ∧
    (2 : Nat) ≠ 1 := by
  constructor
  · decide
  · decide

/-- Witness for the amended C1 at the concrete session `roomU`. -/
theorem claim_C1_games_played_witness :
    "u" ∈ roomU.participantDetails.map (fun p => p.userId) ∧
    (gamesPlayedD (applyFinish roomU []) "u" = gamesPlayedD [] "u" + 1 ∧
     gamesPlayedD (applyFinish roomU (applyFinish roomU [])) "u" =
       gamesPlayedD [] "u" + 2) :=
  ⟨by decide, claim_C1_games_played roomU [] "u" (by decide)⟩

/-! ## C8: the perfect-score threshold is dropped by the store -/

theorem creditGameResult_perfectGames_none (gt : String) (res : GameResult)
    (s : Nat) (n : String) (cur : LeaderboardRecord) :
    (creditGameResult none gt res s n cur).perfectGames = cur.perfectGames := by
  simp [creditGameResult]

theorem readRecord_perfectGames (st : Store) (uid n : String) :
    (readRecord st uid n).perfectGames = perfectGamesD st uid := by
  unfold readRecord perfectGamesD zeroRecord
  cases getAssoc st uid <;> simp

theorem perfectGamesD_applyFinish_of_none (room : RoomData) (st : Store)
    (uid : String) (hps : room.perfectScore = none) :
    perfectGamesD (applyFinish room st) uid = perfectGamesD st uid := by
  cases hf : (finishWrites room st).reverse.find? (fun kv => kv.1 = uid) with
  | none =>
    unfold perfectGamesD
    rw [getAssoc_applyFinish, hf]
  | some kv =>
    have hkvuid : kv.1 = uid := by simpa using List.find?_some hf
    have hkvmem : kv ∈ finishWrites room st :=
      List.mem_reverse.mp (List.mem_of_find?_eq_some hf)
    rcases List.mem_map.mp hkvmem with ⟨r, _, hfr⟩
    have hpg : kv.2.perfectGames = perfectGamesD st uid := by
      rw [← hfr]
      simp only [hps, creditGameResult_perfectGames_none,
        readRecord_perfectGames]
      have huid : r.p.userId = uid := by rw [← hkvuid, ← hfr]
      rw [huid]
    have hres : getAssoc (applyFinish room st) uid = some kv.2 := by
      rw [getAssoc_applyFinish, hf]
    unfold perfectGamesD
    rw [hres]
    simpa using hpg

/-- C8 (code bug).  `quickMatch` passes the session's perfect-score
threshold into `createRoom` (`perfectScore: userProfile.perfectScore`),
but `createRoom` persists a fixed field list that omits it, and every
finish path reads the room back through `getRoom`.  So at finish time
`roomData.perfectScore` is always `undefined` and
`roomData.perfectScore === userScore` is always false: `perfectGames`
never increments, even when the threshold was provided at session
creation and the participant's final score equals it (here both are 50). -/
theorem claim_C8_perfect_games_bug :
    (quickMatchRoomData "u" "U" 1000 50 qB 0).perfectScore = some 50 ∧
    (createRoom 0 (quickMatchRoomData "u" "U" 1000 50 qB 0)).perfectScore = none ∧
    perfectGamesD (applyFinish
      { createRoom 0 (quickMatchRoomData "u" "U" 1000 50 qB 0) with
        status := "playing"
        participantDetails := [⟨"u", "U", 0, true, 50, some 1000⟩,
                               ⟨"B", "B", 0, true, 10, some 1050⟩] } []) "u" = 0 ∧
    (0 : Nat) ≠ 1 := by
  refine ⟨rfl, rfl, ?_, by decide⟩
  decide

/-! ## C10: the event log keeps only the last 100 entries -/

/-- C10.  After any `addGameEvent` the stored log holds at most 100
events; below the cap the event is appended, and appending to a log that
already holds 100 entries discards the oldest entry. -/
theorem claim_C10_event_log_bound (events : List GameEvent) (e : GameEvent) :
    (addGameEvent events e).length ≤ 100 ∧
    (events.length < 100 → addGameEvent events e = events ++ [e]) ∧
    (events.length = 100 → addGameEvent events e = events.drop 1 ++ [e]) := by
  refine ⟨?_, ?_, ?_⟩
  · simp only [addGameEvent, List.length_drop, List.length_append,
      List.length_singleton]
    omega
  · intro h
    show (events ++ [e]).drop ((events ++ [e]).length - 100) = events ++ [e]
    have h0 : (events ++ [e]).length - 100 = 0 := by
      simp only [List.length_append, List.length_singleton]
      omega
    rw [h0, List.drop_zero]
  · intro h
    show (events ++ [e]).drop ((events ++ [e]).length - 100) =
      events.drop 1 ++ [e]
    have h1 : (events ++ [e]).length - 100 = 1 := by
      simp only [List.length_append, List.length_singleton]
      omega
    rw [h1, List.drop_append_of_le_length (by omega)]

/-- Witness for C10 at a log that already holds exactly 100 events. -/
theorem claim_C10_event_log_bound_witness :
    (List.replicate 100 (⟨"u", "U", "bug-solved", 0⟩ : GameEvent)).length = 100 ∧
    addGameEvent (List.replicate 100 ⟨"u", "U", "bug-solved", 0⟩)
        ⟨"v", "V", "timer-update", 1⟩ =
      (List.replicate 100 (⟨"u", "U", "bug-solved", 0⟩ : GameEvent)).drop 1 ++
        [⟨"v", "V", "timer-update", 1⟩] :=
  ⟨by decide,
   (claim_C10_event_log_bound (List.replicate 100 ⟨"u", "U", "bug-solved", 0⟩)
     ⟨"v", "V", "timer-update", 1⟩).2.2 (by decide)⟩

/-! ## C5: `currentPlayers` always equals the participant count -/

/-- C5.  After room creation (whose callers always pass
`currentPlayers` equal to the participant count, as the second and third
conjuncts show for the two real creation payloads), after adding a player
and after removing a player, the stored `currentPlayers` equals the length
of the stored `participants` list: both are recomputed from the same
`participantDetails` array. -/
theorem claim_C5_current_players :
    (∀ (room? : Option RoomData) (op : RoomOp) (now : Nat) (room' : RoomData),
      (∀ rd, op = .create rd → rd.currentPlayers = rd.participants.length) →
      applyRoomOp room? op now = some room' →
      room'.currentPlayers = room'.participants.length) ∧
    (∀ (roomName roomType : String) (maxPlayers : Nat)
        (mode : Option String) (userId username : String) (now : Nat),
      (createRoomHandlerData roomName roomType maxPlayers mode userId
        username now).currentPlayers =
      (createRoomHandlerData roomName roomType maxPlayers mode userId
        username now).participants.length) ∧
    (∀ (userId username : String) (skillLevel perfectScore : Nat)
        (opponent : QueueEntry) (now : Nat),
      (quickMatchRoomData userId username skillLevel perfectScore opponent
        now).currentPlayers =
      (quickMatchRoomData userId username skillLevel perfectScore opponent
        now).participants.length) := by
  refine ⟨?_, ?_, ?_⟩
  · intro room? op now room' hcreate happly
    cases op with
    | create rd =>
      simp only [applyRoomOp, Option.some.injEq] at happly
      subst happly
      simpa [createRoom] using hcreate rd rfl
    | addPlayer userId username skillLevel =>
      cases room? with
      | none => simp [applyRoomOp, addPlayerToRoom] at happly
      | some room =>
        simp only [applyRoomOp, addPlayerToRoom, Option.some.injEq] at happly
        subst happly
        simp
    | removePlayer userId =>
      cases room? with
      | none => simp [applyRoomOp] at happly
      | some room =>
        simp only [applyRoomOp] at happly
        simp only [removePlayerFromRoom] at happly
        split at happly
        · simp at happly
        · rename_i a heq
          simp only [Option.some.injEq] at happly
          subst happly
          split at heq
          · simp at heq
          · split at heq <;>
              (simp only [RemoveResult.updated.injEq] at heq
               subst heq
               simp)
  · intro roomName roomType maxPlayers mode userId username now
    rfl
  · intro userId username skillLevel perfectScore opponent now
    rfl

/-- Witness for C5: creating `roomU` through the store keeps the
invariant. -/
theorem claim_C5_current_players_witness :
    (∀ rd, RoomOp.create roomU = RoomOp.create rd →
      rd.currentPlayers = rd.participants.length) ∧
    applyRoomOp none (.create roomU) 0 = some (createRoom 0 roomU) ∧
    (createRoom 0 roomU).currentPlayers =
      (createRoom 0 roomU).participants.length :=
  ⟨fun rd h => by cases h; decide, rfl,
   claim_C5_current_players.1 none (.create roomU) 0 (createRoom 0 roomU)
     (fun rd h => by cases h; decide) rfl⟩

/-! ## C6: achievements unlock exactly once -/

/-- C6.  At one `(userId, achievementId)` pair: (1) when a
`userAchievements` document already exists, `unlockAchievement` is a
no-op that reports `alreadyUnlocked`, changes no stored state and awards
no points; (2) after a successful unlock any further attempt is such a
no-op; (3) a successful unlock only ever happens from the no-document
state and sets `unlockedAt` non-null — so `unlockedAt` transitions
null→non-null at most once. -/
theorem claim_C6_unlock_once :
    (∀ (d : Option AchievementDef) (now : Nat) (ua : UserAchievement),
      unlockAchievement d now (some ua) =
        (some ua, { success := false, alreadyUnlocked := true,
                    pointsAwarded := none })) ∧
    (∀ (d d' : Option AchievementDef) (now now' : Nat)
        (s₁ : Option UserAchievement) (r₁ : UnlockResult),
      unlockAchievement d now none = (s₁, r₁) → r₁.success = true →
      unlockAchievement d' now' s₁ =
        (s₁, { success := false, alreadyUnlocked := true,
               pointsAwarded := none })) ∧
    (∀ (d : Option AchievementDef) (now : Nat) (s s' : Option UserAchievement)
        (r : UnlockResult),
      unlockAchievement d now s = (s', r) → r.success = true →
      s = none ∧ ∃ ua', s' = some ua' ∧ ua'.unlockedAt = some now) := by
  refine ⟨fun d now ua => rfl, ?_, ?_⟩
  · intro d d' now now' s₁ r₁ h hsucc
    cases d with
    | none =>
      simp only [unlockAchievement, Prod.mk.injEq] at h
      rw [← h.2] at hsucc
      simp at hsucc
    | some a =>
      simp only [unlockAchievement, Prod.mk.injEq] at h
      rw [← h.1]
      rfl
  · intro d now s s' r h hsucc
    cases s with
    | some ua =>
      simp only [unlockAchievement, Prod.mk.injEq] at h
      rw [← h.2] at hsucc
      simp at hsucc
    | none =>
      refine ⟨rfl, ?_⟩
      cases d with
      | none =>
        simp only [unlockAchievement, Prod.mk.injEq] at h
        rw [← h.2] at hsucc
        simp at hsucc
      | some a =>
        simp only [unlockAchievement, Prod.mk.injEq] at h
        exact ⟨_, h.1.symm, rfl⟩

/-- Witness for C6: a second unlock attempt right after a successful one. -/
theorem claim_C6_unlock_once_witness :
    unlockAchievement (some ⟨"first_win", 25⟩) 7 none =
      (some { unlockedAt := some 7, progress := 100 },
       { success := true, alreadyUnlocked := false, pointsAwarded := some 25 }) ∧
    unlockAchievement (some ⟨"first_win", 25⟩) 9
        (some { unlockedAt := some 7, progress := 100 }) =
      (some { unlockedAt := some 7, progress := 100 },
       { success := false, alreadyUnlocked := true, pointsAwarded := none }) :=
  ⟨rfl,
   claim_C6_unlock_once.2.1 (some ⟨"first_win", 25⟩) (some ⟨"first_win", 25⟩)
     7 9 (some { unlockedAt := some 7, progress := 100 })
     { success := true, alreadyUnlocked := false, pointsAwarded := some 25 }
     rfl rfl⟩

/-! ## C7: the achievement progress formula -/

theorem min99_ne_100 (x : Rat) : min x 99 ≠ 100 := by
  intro h
  have hle := min_le_right x 99
  rw [h] at hle
  norm_num at hle

theorem floor_min_eq_100 {t obs : Nat} (ht : 0 < t) (h : t ≤ obs) :
    (⌊min ((obs : Rat) / (t : Rat) * 100) 100⌋ : Int) = 100 := by
  have htQ : (0 : Rat) < t := by exact_mod_cast ht
  have h1 : (1 : Rat) ≤ (obs : Rat) / t := (one_le_div htQ).mpr (by exact_mod_cast h)
  have h100 : (100 : Rat) ≤ (obs : Rat) / t * 100 := by nlinarith
  rw [min_eq_right h100]
  norm_num

theorem floor_min_lt_100 {t obs : Nat} (ht : 0 < t) (h : obs < t) :
    (⌊min ((obs : Rat) / (t : Rat) * 100) 100⌋ : Int) < 100 := by
  have htQ : (0 : Rat) < t := by exact_mod_cast ht
  have h1 : (obs : Rat) / t < 1 := (div_lt_one htQ).mpr (by exact_mod_cast h)
  have hx : (obs : Rat) / t * 100 < 100 := by nlinarith
  have hmin : min ((obs : Rat) / t * 100) 100 < 100 :=
    lt_of_le_of_lt (min_le_left _ _) hx
  exact Int.floor_lt.mpr (by exact_mod_cast hmin)

/-- C7.  For every criteria with a positive target and every stats
snapshot: reaching the target reports `met` with progress 100; below the
target progress is `min(observed / target * 100, 99)` — except the
`achievements_unlocked` arm, which floors `min(observed / target * 100, 100)`
— and progress 100 is never reported without the criterion being met. -/
theorem claim_C7_progress_formula (c : Criteria) (s : UserStats)
    (ht : 0 < c.target) : ProgressSpec c s := by
  obtain ⟨ct, t, m⟩ := c
  simp only at ht
  cases ct
  case achievementsUnlocked =>
    unfold ProgressSpec checkAchievementCriteria observedValue
    dsimp only
    refine ⟨?_, ?_, ?_⟩
    · intro h
      refine ⟨by simp [h], ?_⟩
      simp only [Option.some.injEq]
      rw [floor_min_eq_100 ht h]
      norm_num
    · intro h
      exact ⟨by simp [Nat.not_le.mpr h], fun hne => absurd rfl hne, fun _ => rfl⟩
    · intro hp
      by_cases h : t ≤ s.unlockedAchievementCount
      · simp [h]
      · exfalso
        have hlt := floor_min_lt_100 ht (Nat.lt_of_not_le h)
        simp only [Option.some.injEq] at hp
        have h100 : (⌊min ((s.unlockedAchievementCount : Rat) / (t : Rat) * 100)
            100⌋ : Int) = 100 := by exact_mod_cast hp
        omega
  all_goals
    unfold ProgressSpec checkAchievementCriteria observedValue
  all_goals
    dsimp only
  all_goals
    refine ⟨?_, ?_, ?_⟩
    · intro h
      simp [h]
    · intro h
      have hn := Nat.not_le.mpr h
      exact ⟨by simp [hn], fun _ => by simp [hn], fun hEq => nomatch hEq⟩
    · intro hp
      split at hp
      · rename_i h
        simp [h]
      · exfalso
        simp only [Option.some.injEq] at hp
        exact min99_ne_100 _ hp

/-- Witness for C7: target 10, observed 7 gives progress 70 and no
unlock. -/
theorem claim_C7_progress_formula_witness :
    0 < (⟨.gamesPlayed, 10, ""⟩ : Criteria).target ∧
    ProgressSpec ⟨.gamesPlayed, 10, ""⟩
      { totalScore := 0, gamesPlayed := 7, currentWinStreak := 0, wins := 0,
        unlockedAchievementCount := 0, perfectGames := 0,
        gameTypeScores := [] } :=
  ⟨by decide,
   claim_C7_progress_formula ⟨.gamesPlayed, 10, ""⟩
     { totalScore := 0, gamesPlayed := 7, currentWinStreak := 0, wins := 0,
       unlockedAchievementCount := 0, perfectGames := 0,
       gameTypeScores := [] } (by decide)⟩

/-! ## C3: the matchmaking scan -/

theorem bestStep_go (skill : Nat) :
    ∀ (l : List QueueEntry) (b : QueueEntry),
      ∃ l₁ m l₂, b :: l = l₁ ++ m :: l₂ ∧
        l.foldl (bestStep skill) (some (b, skillDiff skill b.skillLevel)) =
          some (m, skillDiff skill m.skillLevel) ∧
        (∀ x ∈ l₁, skillDiff skill m.skillLevel < skillDiff skill x.skillLevel) ∧
        (∀ x ∈ l₂, skillDiff skill m.skillLevel ≤ skillDiff skill x.skillLevel) := by
  intro l
  induction l with
  | nil =>
    intro b
    exact ⟨[], b, [], rfl, rfl, by simp, by simp⟩
  | cons q l ih =>
    intro b
    rw [List.foldl_cons]
    by_cases hlt : skillDiff skill q.skillLevel < skillDiff skill b.skillLevel
    · have hstep : bestStep skill (some (b, skillDiff skill b.skillLevel)) q =
          some (q, skillDiff skill q.skillLevel) := by
        simp [bestStep, hlt]
      rw [hstep]
      rcases ih q with ⟨l₁, m, l₂, hsplit, hfold, hbefore, hafter⟩
      have hmq : skillDiff skill m.skillLevel ≤ skillDiff skill q.skillLevel := by
        cases l₁ with
        | nil =>
          have hm : q = m ∧ l = l₂ := by simpa using hsplit
          rw [hm.1]
        | cons a l₁' =>
          have ha : q = a ∧ l = l₁' ++ m :: l₂ := by simpa using hsplit
          exact le_of_lt (ha.1 ▸ hbefore a (by simp))
      refine ⟨b :: l₁, m, l₂, by simpa using hsplit, hfold, ?_, hafter⟩
      intro x hx
      rcases List.mem_cons.mp hx with rfl | hx
      · exact lt_of_le_of_lt hmq hlt
      · exact hbefore x hx
    · have hstep : bestStep skill (some (b, skillDiff skill b.skillLevel)) q =
          some (b, skillDiff skill b.skillLevel) := by
        simp [bestStep, hlt]
      rw [hstep]
      rcases ih b with ⟨l₁, m, l₂, hsplit, hfold, hbefore, hafter⟩
      cases l₁ with
      | nil =>
        have hm : b = m ∧ l = l₂ := by simpa using hsplit
        refine ⟨[], m, q :: l₂, by simp [hm.1, hm.2], hfold, by simp, ?_⟩
        intro x hx
        rcases List.mem_cons.mp hx with rfl | hx
        · rw [← hm.1]; exact Nat.le_of_not_lt hlt
        · exact hafter x hx
      | cons a l₁' =>
        have ha : b = a ∧ l = l₁' ++ m :: l₂ := by simpa using hsplit
        have hmb : skillDiff skill m.skillLevel < skillDiff skill b.skillLevel := by
          have := hbefore a (by simp)
          rw [← ha.1] at this
          exact this
        refine ⟨b :: q :: l₁', m, l₂, by simp [ha.2], hfold, ?_, hafter⟩
        intro x hx
        rcases List.mem_cons.mp hx with rfl | hx
        · exact hmb
        rcases List.mem_cons.mp hx with rfl | hx
        · exact lt_of_lt_of_le hmb (Nat.le_of_not_lt hlt)
        · exact hbefore x (by simp [hx])

/-- C3 (amended).  `findMatch` considers **every** queued entry — the
skill-range query is commented out in the source, so `skillRange` is
never applied — excludes the requester, reports not-found exactly when
nothing else is queued, and otherwise returns the entry minimising the
absolute skill difference, ties broken by earliest position in the
queue's scan order (ascending skill level), not by `joinedAt`.  The
spec's concrete example still holds: from `[{A,1000},{B,1050},{C,1800}]`
a request by A returns B at difference 50. -/
theorem claim_C3_find_match :
    (∀ (selfId : String) (skillLevel skillRange : Nat)
        (queue : List QueueEntry),
      (findMatch selfId skillLevel skillRange queue = none ↔
        queue.filter (fun m => m.userId ≠ selfId) = []) ∧
      (∀ mt d, findMatch selfId skillLevel skillRange queue = some (mt, d) →
        FirstClosest skillLevel (queue.filter (fun m => m.userId ≠ selfId))
          mt d)) ∧
    findMatch "A" 1000 300 [qA, qB, qC] = some (qB, 50) := by
  constructor
  · intro selfId skillLevel skillRange queue
    have hfm : findMatch selfId skillLevel skillRange queue =
        (queue.filter (fun m => m.userId ≠ selfId)).foldl
          (bestStep skillLevel) none := rfl
    cases hpool : queue.filter (fun m => m.userId ≠ selfId) with
    | nil =>
      rw [hfm, hpool]
      exact ⟨by simp, by simp⟩
    | cons p rest =>
      rw [hfm, hpool]
      rw [List.foldl_cons]
      have hfirst : bestStep skillLevel none p =
          some (p, skillDiff skillLevel p.skillLevel) := rfl
      rw [hfirst]
      rcases bestStep_go skillLevel rest p with
        ⟨l₁, m, l₂, hsplit, hfold, hbefore, hafter⟩
      constructor
      · rw [hfold]
        simp
      · intro mt d heq
        rw [hfold] at heq
        have hmt : mt = m ∧ d = skillDiff skillLevel m.skillLevel := by
          have := heq
          simp only [Option.some.injEq, Prod.mk.injEq] at this
          exact ⟨this.1.symm, this.2.symm⟩
        rw [hmt.1, hmt.2]
        exact ⟨l₁, l₂, hsplit, rfl, hbefore, hafter⟩
  · rfl

/-- Counterexample to C3 as stated.  First conjunct: with queue
`[{A,1000},{C,1800}]` and skillRange 300, the only candidate C is 800
away — outside the claimed range — yet `findMatch` returns it instead of
reporting not-found.  Remaining conjuncts: with two candidates both 50
away, X(skill 950, joinedAt 100) and Y(skill 1050, joinedAt 0), the scan
returns X although Y joined earlier, refuting the earliest-`joinedAt`
tie-break. -/
theorem claim_C3_counterexample :
    findMatch "A" 1000 300 [qA, qC] = some (qC, 800) ∧
    ¬ (800 ≤ 300) ∧
    findMatch "A" 1000 300
        [⟨"X", "X", 950, 100⟩, ⟨"Y", "Y", 1050, 0⟩] =
      some (⟨"X", "X", 950, 100⟩, 50) ∧
    skillDiff 1000 950 = skillDiff 1000 1050 ∧
    (100 : Nat) ≠ 0 := by
  refine ⟨by decide, by decide, by decide, by decide, by decide⟩

/-- Witness for the amended C3 at the spec's example queue. -/
theorem claim_C3_find_match_witness :
    findMatch "A" 1000 300 [qA, qB, qC] = some (qB, 50) ∧
    FirstClosest 1000 ([qA, qB, qC].filter (fun m => m.userId ≠ "A")) qB 50 :=
  ⟨rfl, (claim_C3_find_match.1 "A" 1000 300 [qA, qB, qC]).2 qB 50 rfl⟩

/-! ## C9: game-event rejection and no-op semantics -/

/-- Counterexample to C9 as stated: the handler rejects a missing room
and a non-participant through the very same guard with the identical
message `You are not in this room` — there is no distinct NotFound
rejection for a missing room. -/
theorem claim_C9_counterexample :
    (handleGameEvent none "u" "U" "bug-solved" ⟨none, false⟩ 0 []).error =
      (handleGameEvent (some roomAB) "u" "U" "bug-solved"
        ⟨none, false⟩ 0 []).error ∧
    (handleGameEvent none "u" "U" "bug-solved" ⟨none, false⟩ 0 []).error =
      some "You are not in this room" := by
  refine ⟨?_, ?_⟩ <;> decide

/-- C9 (amended).  A game event for a missing room and one from a
non-participant are both rejected, with the same single error message
`You are not in this room` (the guard cannot tell the two apart); an
unrecognised event type is logged and ignored — no rejection, no room
mutation, no store mutation. -/
theorem claim_C9_rejections :
    (∀ (userId username eventType : String) (ed : EventData) (now : Nat)
        (st : Store),
      eventType ≠ "" →
      (handleGameEvent none userId username eventType ed now st).error =
        some "You are not in this room") ∧
    (∀ (room : RoomData) (userId username eventType : String)
        (ed : EventData) (now : Nat) (st : Store),
      eventType ≠ "" → userId ∉ room.participants →
      (handleGameEvent (some room) userId username eventType ed now st).error =
        some "You are not in this room") ∧
    (∀ (room : RoomData) (userId username eventType : String)
        (ed : EventData) (now : Nat) (st : Store),
      userId ∈ room.participants →
      eventType ∉ ["", "test-case-passed", "bug-solved", "question-answered",
        "timer-update", "game-finished", "hint-used", "player-ready-change"] →
      handleGameEvent (some room) userId username eventType ed now st =
        { error := none, room := some room, eventLogged := true,
          recognized := false, store := st }) := by
  refine ⟨?_, ?_, ?_⟩
  · intro userId username eventType ed now st hne
    simp [handleGameEvent, hne]
  · intro room userId username eventType ed now st hne hnotin
    simp [handleGameEvent, hne, hnotin]
  · intro room userId username eventType ed now st hmem hnot
    simp only [List.mem_cons, List.mem_singleton, not_or] at hnot
    obtain ⟨h0, h1, h2, h3, h4, h5, h6, h7⟩ := hnot
    simp [handleGameEvent, h0, h1, h2, h3, h4, h5, h6, h7, hmem]

/-- Witness for the amended C9: participant `a` of `roomAB` sends an
unknown event type. -/
theorem claim_C9_rejections_witness :
    "a" ∈ roomAB.participants ∧
    ("power-up-used" : String) ∉ ["", "test-case-passed", "bug-solved",
      "question-answered", "timer-update", "game-finished", "hint-used",
      "player-ready-change"] ∧
    handleGameEvent (some roomAB) "a" "A" "power-up-used"
        ⟨none, false⟩ 0 [] =
      { error := none, room := some roomAB, eventLogged := true,
        recognized := false, store := [] } :=
  ⟨by decide, by decide,
   claim_C9_rejections.2.2 roomAB "a" "A" "power-up-used" ⟨none, false⟩ 0 []
     (by decide) (by decide)⟩

/-! ## C2: the leave-room forfeit -/

theorem readRecord_wins (st : Store) (uid n : String) :
    (readRecord st uid n).wins = winsD st uid := by
  unfold readRecord winsD zeroRecord
  cases getAssoc st uid <;> simp

theorem readRecord_losses (st : Store) (uid n : String) :
    (readRecord st uid n).losses = lossesD st uid := by
  unfold readRecord lossesD zeroRecord
  cases getAssoc st uid <;> simp

/-- C2 (amended).  Whenever removing `uid` from a session leaves exactly
one participant `w`, the leave fires a forfeit finish: the room is marked
finished and removed, `w` is declared the winner at rank 1 — their
positive score preserved, floored to 50 when they had no organic score —
the leaving participant is recorded at rank 2 with score 0 (always 0,
even when they had a positive score), and the durable store credits `w`
with a win and the leaver with a loss, one game played each. -/
theorem claim_C2_forfeit (room : RoomData) (w : Participant)
    (uid uname : String) (now : Nat) (st : Store)
    (hmem : uid ∈ room.participants)
    (hfilter : room.participantDetails.filter (fun p => p.userId ≠ uid) = [w])
    (hwuid : w.userId ≠ uid) :
    ForfeitSpec room w uid uname now st := by
  obtain ⟨room', hrem, hpd⟩ :
      ∃ room', removePlayerFromRoom room uid now = .updated room' ∧
        room'.participantDetails = [w] := by
    unfold removePlayerFromRoom
    simp only [hfilter]
    by_cases hc : room.createdBy = uid
    · refine ⟨{ room with
        createdBy := w.userId
        creatorUsername := w.username
        participantDetails := [w]
        currentPlayers := 1
        participants := [w.userId]
        lastActivity := now }, ?_, rfl⟩
      simp [hc]
    · refine ⟨{ room with
        participantDetails := [w]
        currentPlayers := 1
        participants := [w.userId]
        lastActivity := now }, ?_, rfl⟩
      simp [hc]
  have hleave : leaveRoom (some room) uid uname now st =
      .forfeitFinish (handleGameFinished
        (some { room' with participantDetails := forfeitDetails w uid uname })
        now st) := by
    unfold leaveRoom
    dsimp only
    rw [hrem]
    simp [hmem, hpd]
  obtain ⟨s, hs_def, hs0⟩ :
      ∃ s, (if w.score = 0 then 50 else w.score) = s ∧ 0 < s := by
    by_cases h : w.score = 0
    · exact ⟨50, by simp [h], by omega⟩
    · exact ⟨w.score, by simp [h], Nat.pos_of_ne_zero h⟩
  have hs0' : ¬ ((0 : Nat) = s) := by omega
  have hfd : forfeitDetails w uid uname =
      [{ w with score := s }, ⟨uid, uname, 0, false, 0, none⟩] := by
    simp [forfeitDetails, hs_def]
  have hsort : sortScoreDesc
      [{ w with score := s }, ⟨uid, uname, 0, false, 0, none⟩] =
      [{ w with score := s }, ⟨uid, uname, 0, false, 0, none⟩] := by
    simp [sortScoreDesc, insertScoreDesc]
  have hfs : finalScoresOf
      [{ w with score := s }, ⟨uid, uname, 0, false, 0, none⟩] =
      [⟨{ w with score := s }, 1, true⟩,
       ⟨⟨uid, uname, 0, false, 0, none⟩, 2, false⟩] := by
    simp [finalScoresOf, hsort, List.enum, List.enumFrom]
  have hhi : highestScoreOf
      [{ w with score := s }, ⟨uid, uname, 0, false, 0, none⟩] = s := by
    simp [highestScoreOf, hsort]
  have hwin : winnersOf
      [{ w with score := s }, ⟨uid, uname, 0, false, 0, none⟩] =
      [⟨{ w with score := s }, 1, true⟩] := by
    simp [winnersOf, hfs, hhi, hs0']
  have hresw : resultOf
      [{ w with score := s }, ⟨uid, uname, 0, false, 0, none⟩]
      { w with score := s } = .win := by
    simp [resultOf, hwin]
  have hresl : resultOf
      [{ w with score := s }, ⟨uid, uname, 0, false, 0, none⟩]
      ⟨uid, uname, 0, false, 0, none⟩ = .loss := by
    simp [resultOf, hwin, hwuid]
  have hpr : playerResultsOf
      [{ w with score := s }, ⟨uid, uname, 0, false, 0, none⟩] =
      [⟨w.userId, w.username, .win, s, 1, 2, s⟩,
       ⟨uid, uname, .loss, 0, 2, 2, 0⟩] := by
    simp [playerResultsOf, hfs, hresw, hresl]
  obtain ⟨R1, R2, hfw, hR1w, hR1g, hR2l, hR2g⟩ :
      ∃ R1 R2, finishWrites
          { room' with participantDetails := forfeitDetails w uid uname } st =
          [(w.userId, R1), (uid, R2)] ∧
        R1.wins = winsD st w.userId + 1 ∧
        R1.gamesPlayed = gamesPlayedD st w.userId + 1 ∧
        R2.losses = lossesD st uid + 1 ∧
        R2.gamesPlayed = gamesPlayedD st uid + 1 := by
    refine ⟨creditGameResult room'.perfectScore
        (room'.gameSettingsMode.getD "quiz") .win s w.username
        (readRecord st w.userId w.username),
      creditGameResult room'.perfectScore
        (room'.gameSettingsMode.getD "quiz") .loss 0 uname
        (readRecord st uid uname), ?_, ?_, ?_, ?_, ?_⟩
    · show finishWrites _ st = _
      simp only [finishWrites, hfd, hfs, hresw, hresl, List.map_cons,
        List.map_nil]
    · simp [creditGameResult, readRecord_wins]
    · simp [creditGameResult, readRecord_gamesPlayed]
    · simp [creditGameResult, readRecord_losses]
    · simp [creditGameResult, readRecord_gamesPlayed]
  have hA : getAssoc (applyFinish
      { room' with participantDetails := forfeitDetails w uid uname } st)
      w.userId = some R1 := by
    unfold applyFinish
    rw [hfw]
    show getAssoc (setAssoc (setAssoc st w.userId R1) uid R2) w.userId = some R1
    rw [getAssoc_setAssoc_ne _ _ hwuid, getAssoc_setAssoc_self]
  have hB : getAssoc (applyFinish
      { room' with participantDetails := forfeitDetails w uid uname } st)
      uid = some R2 := by
    unfold applyFinish
    rw [hfw]
    show getAssoc (setAssoc (setAssoc st w.userId R1) uid R2) uid = some R2
    rw [getAssoc_setAssoc_self]
  have hemp : (forfeitDetails w uid uname).isEmpty = false := by
    rw [hfd]
    rfl
  have hresults : (handleGameFinished
      (some { room' with participantDetails := forfeitDetails w uid uname })
      now st).results = playerResultsOf (forfeitDetails w uid uname) := by
    simp [handleGameFinished, hemp]
  have hstore : (handleGameFinished
      (some { room' with participantDetails := forfeitDetails w uid uname })
      now st).store = applyFinish
      { room' with participantDetails := forfeitDetails w uid uname } st := by
    simp [handleGameFinished, hemp]
  refine ⟨handleGameFinished
      (some { room' with participantDetails := forfeitDetails w uid uname })
      now st, hleave, ?_, ?_, ?_, ?_, ?_, ?_, ?_, ?_⟩
  · refine ⟨{ room' with
        participantDetails := forfeitDetails w uid uname
        status := "finished"
        gameFinishedAt := some now
        lastActivity := now }, ?_, rfl⟩
    simp [handleGameFinished, hemp]
  · simp [handleGameFinished, hemp]
  · rw [hresults, hfd, hpr, hs_def]
    simp
  · rw [hresults, hfd, hpr]
    simp [List.find?_cons, hwuid]
  · rw [hstore]
    unfold winsD
    rw [hA]
    simpa using hR1w
  · rw [hstore]
    unfold gamesPlayedD
    rw [hA]
    simpa using hR1g
  · rw [hstore]
    unfold lossesD
    rw [hB]
    simpa using hR2l
  · rw [hstore]
    unfold gamesPlayedD
    rw [hB]
    simpa using hR2g

/-- Counterexample to C2 as stated: in `roomAB` the leaver `b` already
has the positive score 30, yet the forfeit records them at score 0 — the
handler builds the leaver's entry as `{ userId, username, score: 0 }`
unconditionally, so a positive prior score is **not** preserved. -/
theorem claim_C2_counterexample :
    (roomAB.participantDetails.find? (fun p => p.userId = "b")).map
      (fun p => p.score) = some 30 ∧
    leaverRecordedScore (leaveRoom (some roomAB) "b" "B" 5 []) "b" = some 0 ∧
    some (0 : Nat) ≠ some 30 := by
  refine ⟨by decide, by decide, by decide⟩

/-- Witness for the amended C2: `b` (score 30) leaves `roomAB`, leaving
`a` (score 40) alone. -/
theorem claim_C2_forfeit_witness :
    "b" ∈ roomAB.participants ∧
    roomAB.participantDetails.filter (fun p => p.userId ≠ "b") =
      [⟨"a", "A", 0, true, 40, none⟩] ∧
    (⟨"a", "A", 0, true, 40, none⟩ : Participant).userId ≠ "b" ∧
    ForfeitSpec roomAB ⟨"a", "A", 0, true, 40, none⟩ "b" "B" 5 [] :=
  ⟨by decide, by decide, by decide,
   claim_C2_forfeit roomAB ⟨"a", "A", 0, true, 40, none⟩ "b" "B" 5 []
     (by decide) (by decide) (by decide)⟩

end RealtimeSocketDB
